import Mathlib

/-!
Verification of the casper-node `bytesrepr` byte-serialization layer
(`src/types/src/bytesrepr/bytes.rs`) and of the execution-engine test-support
`StepRequestBuilder`
(`src/execution_engine_testing/test_support/src/step_request_builder.rs`).

Byte sequences are modelled as `List Nat` ("each element one byte"); machine
integers are `Nat` with explicit bounds where width matters. Fallible Rust
functions returning `Result<T, Error>` are modelled as `Except Error T`.
The helper functions of the `bytesrepr` module itself (`safe_split_at`,
`serialize_bytes`, `bytes_serialized_length`, the `u32` codec) are not among
the given sources; they are modelled from the specification, as marked in
their doc comments.
-/

namespace Bytesrepr

/-- The decode/encode error taxonomy of `bytesrepr::Error` (closed set; the
spec's §7 names stream exhaustion for decoding and length-overflow for
encoding). -/
inductive Error where
  | EarlyEndOfStream
  | Formatting
  | LeftOverBytes
  | OutOfMemory
deriving DecidableEq, Repr

/-- A byte sequence (Rust `&[u8]` / `Vec<u8>`), one `Nat` per byte. -/
abbrev ByteSeq := List Nat

/-- `bytesrepr::U32_SERIALIZED_LENGTH`: the byte width of a `u32` length
prefix. -/
def U32_SERIALIZED_LENGTH : Nat := 4

/-- The largest length representable in the 4-byte prefix (`u32::MAX`). -/
def U32_MAX : Nat := 2 ^ 32 - 1

/-- Modelled from the spec: §4.1 Safe-Slice Primitive (`bytesrepr::safe_split_at`,
whose source is outside the given files). Given a buffer and a requested
length, return the length-`index` prefix and the suffix, or fail with the
stream-exhaustion error when the request exceeds the buffer's length. -/
def safe_split_at (bytes : ByteSeq) (index : Nat) :
    Except Error (ByteSeq × ByteSeq) :=
  if bytes.length < index then .error .EarlyEndOfStream
  else .ok (bytes.take index, bytes.drop index)

/-- Modelled from the spec: §4.2 little-endian encoding of a `u32`
(`u32::to_le_bytes`, outside the given files): four bytes, least significant
first. -/
def u32_to_le_bytes (n : Nat) : ByteSeq :=
  [n % 256, n / 256 % 256, n / 256 ^ 2 % 256, n / 256 ^ 3 % 256]

/-- Modelled from the spec: §4.2 little-endian reconstruction of a `u32` from
its bytes (`u32::from_le_bytes`, outside the given files). -/
def u32_from_le_bytes (bs : ByteSeq) : Nat :=
  bs.foldr (fun b acc => b + 256 * acc) 0

/-- Modelled from the spec: §4.2 `u32` decode (`impl FromBytes for u32`,
outside the given files): consume exactly 4 bytes through the safe-slice
primitive, failing with stream exhaustion when fewer remain, and reconstruct
the integer little-endian. -/
def u32_from_bytes (bytes : ByteSeq) : Except Error (Nat × ByteSeq) :=
  match safe_split_at bytes U32_SERIALIZED_LENGTH with
  | .error e => .error e
  | .ok (result, remainder) => .ok (u32_from_le_bytes result, remainder)

/-- Modelled from the spec: §4.4 — the owned-buffer `u32::from_vec` (outside
the given files) decodes exactly as `from_bytes` and hands back the remainder
owned. -/
def u32_from_vec (stream : ByteSeq) : Except Error (Nat × ByteSeq) :=
  u32_from_bytes stream

/-- Modelled from the spec: §4.3/§4.5 `bytesrepr::serialize_bytes` (outside the
given files): emit the 4-byte little-endian length followed by the raw bytes;
encoding fails exactly when the length cannot be represented in the 4-byte
prefix. -/
def serialize_bytes (bytes : ByteSeq) : Except Error ByteSeq :=
  if bytes.length ≤ U32_MAX then
    .ok (u32_to_le_bytes bytes.length ++ bytes)
  else .error .OutOfMemory

/-- Modelled from the spec: §3 `bytesrepr::bytes_serialized_length` (outside
the given files): the 4-byte prefix width plus the payload length. -/
def bytes_serialized_length (bytes : ByteSeq) : Nat :=
  U32_SERIALIZED_LENGTH + bytes.length

/-- The newtype `Bytes(Vec<u8>)` of `bytes.rs`, with the derived structural
equality over the wrapped byte sequence. -/
structure Bytes where
  toList : ByteSeq
deriving DecidableEq, Repr

/-- `impl ToBytes for Bytes`, `fn to_bytes`. -/
def Bytes.to_bytes (v : Bytes) : Except Error ByteSeq :=
  serialize_bytes v.toList

/-- `impl ToBytes for Bytes`, `fn into_bytes` (same body as `to_bytes`). -/
def Bytes.into_bytes (v : Bytes) : Except Error ByteSeq :=
  serialize_bytes v.toList

/-- `impl ToBytes for Bytes`, `fn serialized_length`. -/
def Bytes.serialized_length (v : Bytes) : Nat :=
  bytes_serialized_length v.toList

/-- `impl FromBytes for Bytes`, `fn from_bytes`: decode a `u32` size, then
carve exactly `size` payload bytes through the safe-slice primitive; the `?`
propagation of Rust becomes explicit error matching. -/
def Bytes.from_bytes (bytes : ByteSeq) : Except Error (Bytes × ByteSeq) :=
  match u32_from_bytes bytes with
  | .error e => .error e
  | .ok (size, remainder) =>
    match safe_split_at remainder size with
    | .error e => .error e
    | .ok (result, remainder) => .ok (⟨result⟩, remainder)

/-- `impl FromBytes for Bytes`, `fn from_vec`: decode a `u32` size from the
owned stream, fail with `EarlyEndOfStream` when `size` exceeds what remains,
else split the stream (`split_off`) into payload and owned remainder. -/
def Bytes.from_vec (stream : ByteSeq) : Except Error (Bytes × ByteSeq) :=
  match u32_from_vec stream with
  | .error e => .error e
  | .ok (size, stream) =>
    if stream.length < size then .error .EarlyEndOfStream
    else .ok (⟨stream.take size⟩, stream.drop size)

/-! ### Helper lemmas -/

theorem u32_to_le_bytes_length (n : Nat) : (u32_to_le_bytes n).length = 4 :=
  rfl

theorem u32_from_le_of_to_le (n : Nat) (h : n ≤ U32_MAX) :
    u32_from_le_bytes (u32_to_le_bytes n) = n := by
  unfold U32_MAX at h
  simp only [u32_from_le_bytes, u32_to_le_bytes, List.foldr_cons, List.foldr_nil]
  omega

/-- Characterization of a successful encode. -/
theorem to_bytes_ok_iff (v : Bytes) (b : ByteSeq) :
    Bytes.to_bytes v = .ok b ↔
      v.toList.length ≤ U32_MAX ∧ b = u32_to_le_bytes v.toList.length ++ v.toList := by
  unfold Bytes.to_bytes serialize_bytes
  by_cases h : v.toList.length ≤ U32_MAX
  · simp only [if_pos h, Except.ok.injEq]
    constructor
    · intro hb
      exact ⟨h, hb.symm⟩
    · rintro ⟨-, rfl⟩
      rfl
  · simp [h]

/-- Splitting an append at the left part's exact length succeeds. -/
theorem safe_split_at_append (l₁ l₂ : ByteSeq) :
    safe_split_at (l₁ ++ l₂) l₁.length = .ok (l₁, l₂) := by
  unfold safe_split_at
  rw [if_neg (by simp only [List.length_append]; omega)]
  rw [List.take_left, List.drop_left]

/-- The `u32` decoder recovers a length written in front of arbitrary data. -/
theorem u32_from_bytes_encode_append (n : Nat) (rest : ByteSeq)
    (h : n ≤ U32_MAX) :
    u32_from_bytes (u32_to_le_bytes n ++ rest) = .ok (n, rest) := by
  unfold u32_from_bytes
  rw [show U32_SERIALIZED_LENGTH = (u32_to_le_bytes n).length from rfl,
    safe_split_at_append]
  simp [u32_from_le_of_to_le _ h]

/-- Decoding a well-formed encoding with any suffix appended yields the
payload and exactly that suffix. -/
theorem from_bytes_encode_append (payload s : ByteSeq)
    (h : payload.length ≤ U32_MAX) :
    Bytes.from_bytes (u32_to_le_bytes payload.length ++ (payload ++ s)) =
      .ok (⟨payload⟩, s) := by
  unfold Bytes.from_bytes
  rw [u32_from_bytes_encode_append _ _ h]
  simp [safe_split_at_append]

/-- Round-trip helper: decoding a successful encoding gives back the value
with nothing left over. -/
theorem from_bytes_to_bytes (v : Bytes) (enc : ByteSeq)
    (h : Bytes.to_bytes v = .ok enc) :
    Bytes.from_bytes enc = .ok (v, []) := by
  obtain ⟨hle, rfl⟩ := (to_bytes_ok_iff v enc).mp h
  have := from_bytes_encode_append v.toList [] hle
  rwa [List.append_nil] at this

/-- A buffer shorter than the 4-byte size prefix fails to decode. -/
theorem from_bytes_short (bs : ByteSeq) (h : bs.length < 4) :
    Bytes.from_bytes bs = .error .EarlyEndOfStream := by
  unfold Bytes.from_bytes u32_from_bytes safe_split_at
  rw [if_pos (show bs.length < U32_SERIALIZED_LENGTH from h)]

/-- Any strict truncation of a well-formed encoding fails with stream
exhaustion. -/
theorem from_bytes_truncated (payload : ByteSeq) (k : Nat)
    (hlen : payload.length ≤ U32_MAX) (hk : k < 4 + payload.length) :
    Bytes.from_bytes ((u32_to_le_bytes payload.length ++ payload).take k) =
      .error .EarlyEndOfStream := by
  by_cases h4 : k < 4
  · apply from_bytes_short
    simp only [List.length_take, List.length_append, u32_to_le_bytes_length]
    omega
  · have htake : (u32_to_le_bytes payload.length ++ payload).take k =
        u32_to_le_bytes payload.length ++ payload.take (k - 4) := by
      rw [List.take_append_eq_append_take]
      rw [u32_to_le_bytes_length]
      congr 1
      apply List.take_of_length_le
      rw [u32_to_le_bytes_length]
      omega
    rw [htake]
    unfold Bytes.from_bytes
    rw [u32_from_bytes_encode_append _ _ hlen]
    have hsplit : safe_split_at (payload.take (k - 4)) payload.length =
        .error .EarlyEndOfStream := by
      unfold safe_split_at
      rw [if_pos]
      simp only [List.length_take]
      omega
    simp [hsplit]

/-- Encoding a too-long byte sequence fails. -/
theorem serialize_bytes_of_long (bytes : ByteSeq) (h : U32_MAX < bytes.length) :
    serialize_bytes bytes = .error .OutOfMemory := by
  unfold serialize_bytes
  rw [if_neg (Nat.not_le_of_lt h)]

/-! ### Claims -/

/-- C1. Round-trip: for every `Bytes` container `v`, decoding its encoding
succeeds, returns `v`, and consumes the whole buffer — the remainder is
empty. -/
theorem c1_roundtrip (v : Bytes) (enc : ByteSeq)
    (h : Bytes.to_bytes v = .ok enc) :
    Bytes.from_bytes enc = .ok (v, []) :=
  from_bytes_to_bytes v enc h

theorem c1_roundtrip_witness :
    Bytes.from_bytes [5, 0, 0, 0, 1, 2, 3, 4, 5] = .ok (⟨[1, 2, 3, 4, 5]⟩, []) :=
  c1_roundtrip ⟨[1, 2, 3, 4, 5]⟩ [5, 0, 0, 0, 1, 2, 3, 4, 5] (by rfl)

/-- C2. Truncation safety: for every `Bytes` container `v` and every
truncation point `k` strictly below the length of its encoding, decoding the
first `k` bytes fails with `EarlyEndOfStream` (both when the 4-byte prefix is
incomplete, `k < 4`, and when the payload is incomplete, `4 ≤ k`). -/
theorem c2_truncation (v : Bytes) (enc : ByteSeq) (k : Nat)
    (henc : Bytes.to_bytes v = .ok enc) (hk : k < enc.length) :
    Bytes.from_bytes (enc.take k) = .error .EarlyEndOfStream := by
  obtain ⟨hle, rfl⟩ := (to_bytes_ok_iff v enc).mp henc
  apply from_bytes_truncated v.toList k hle
  simp only [List.length_append, u32_to_le_bytes_length] at hk
  omega

theorem c2_truncation_witness :
    Bytes.from_bytes (List.take 8 [5, 0, 0, 0, 1, 2, 3, 4, 5]) =
      .error .EarlyEndOfStream :=
  c2_truncation ⟨[1, 2, 3, 4, 5]⟩ [5, 0, 0, 0, 1, 2, 3, 4, 5] 8 (by rfl)
    (by decide)

/-- C3 counterexample: two distinct containers of length `2^32` (a length the
4-byte prefix cannot represent) both fail to encode with the same error, so
their `to_bytes` results are equal while the containers are not — the
unrestricted "v1 = v2 iff to_bytes v1 = to_bytes v2" biconditional fails. -/
theorem c3_canonicality_counterexample :
    (⟨List.replicate (2 ^ 32) 0⟩ : Bytes) ≠ ⟨List.replicate (2 ^ 32) 1⟩ ∧
    Bytes.to_bytes ⟨List.replicate (2 ^ 32) 0⟩ =
      Bytes.to_bytes ⟨List.replicate (2 ^ 32) 1⟩ := by
  constructor
  · intro h
    have hl : List.replicate (2 ^ 32) (0 : Nat) = List.replicate (2 ^ 32) 1 :=
      congrArg Bytes.toList h
    have h0 : (0 : Nat) ∈ List.replicate (2 ^ 32) (1 : Nat) := by
      rw [← hl]
      exact List.mem_replicate.mpr ⟨by norm_num, rfl⟩
    exact absurd (List.mem_replicate.mp h0).2 (by norm_num)
  · have h1 : Bytes.to_bytes ⟨List.replicate (2 ^ 32) 0⟩ = .error .OutOfMemory :=
      serialize_bytes_of_long _ (by norm_num [U32_MAX, List.length_replicate])
    have h2 : Bytes.to_bytes ⟨List.replicate (2 ^ 32) 1⟩ = .error .OutOfMemory :=
      serialize_bytes_of_long _ (by norm_num [U32_MAX, List.length_replicate])
    rw [h1, h2]

/-- C3 (amended). Canonicality for encodable containers: whenever both
containers encode successfully, the containers are equal iff their encodings
are equal byte for byte. -/
theorem c3_canonicality (v1 v2 : Bytes) (b1 b2 : ByteSeq)
    (h1 : Bytes.to_bytes v1 = .ok b1) (h2 : Bytes.to_bytes v2 = .ok b2) :
    v1 = v2 ↔ b1 = b2 := by
  constructor
  · rintro rfl
    rw [h1] at h2
    injection h2
  · intro hb
    have r1 := from_bytes_to_bytes v1 b1 h1
    have r2 := from_bytes_to_bytes v2 b2 h2
    rw [hb, r2] at r1
    injection r1 with r1
    injection r1 with ha hb2
    exact ha.symm

theorem c3_canonicality_witness :
    ((⟨[1, 2, 3]⟩ : Bytes) = ⟨[9, 9, 9]⟩) ↔
      [3, 0, 0, 0, 1, 2, 3] = ([3, 0, 0, 0, 9, 9, 9] : ByteSeq) :=
  c3_canonicality ⟨[1, 2, 3]⟩ ⟨[9, 9, 9]⟩ [3, 0, 0, 0, 1, 2, 3]
    [3, 0, 0, 0, 9, 9, 9] (by rfl) (by rfl)

/-- C4. Borrow/owned decode agreement: on every input buffer, `from_vec`
returns exactly what `from_bytes` returns — the same decoded value and
remainder on success, and the same error kind on failure. -/
theorem c4_from_vec_agrees_with_from_bytes (b : ByteSeq) :
    Bytes.from_vec b = Bytes.from_bytes b := by
  unfold Bytes.from_vec Bytes.from_bytes u32_from_vec
  cases h : u32_from_bytes b with
  | error e => rfl
  | ok p =>
    obtain ⟨size, stream⟩ := p
    unfold safe_split_at
    by_cases hlt : stream.length < size <;> simp [hlt]

/-- C5. Length accuracy: `serialized_length v = 4 + len v`, and every
successful encoding has exactly `serialized_length v` bytes. -/
theorem c5_length_accuracy (v : Bytes) :
    Bytes.serialized_length v = 4 + v.toList.length ∧
    ∀ enc : ByteSeq, Bytes.to_bytes v = .ok enc →
      enc.length = Bytes.serialized_length v := by
  refine ⟨rfl, ?_⟩
  intro enc h
  obtain ⟨-, rfl⟩ := (to_bytes_ok_iff v enc).mp h
  simp only [List.length_append, u32_to_le_bytes_length]
  rfl

theorem c5_length_accuracy_witness :
    List.length [5, 0, 0, 0, 1, 2, 3, 4, 5] =
      Bytes.serialized_length ⟨[1, 2, 3, 4, 5]⟩ :=
  (c5_length_accuracy ⟨[1, 2, 3, 4, 5]⟩).2 [5, 0, 0, 0, 1, 2, 3, 4, 5] (by rfl)

/-- C6. Remainder preservation: decoding an encoding with an arbitrary suffix
appended returns the original container and exactly that suffix. -/
theorem c6_remainder_preservation (v : Bytes) (enc s : ByteSeq)
    (h : Bytes.to_bytes v = .ok enc) :
    Bytes.from_bytes (enc ++ s) = .ok (v, s) := by
  obtain ⟨hle, rfl⟩ := (to_bytes_ok_iff v enc).mp h
  rw [List.append_assoc]
  exact from_bytes_encode_append v.toList s hle

theorem c6_remainder_preservation_witness :
    Bytes.from_bytes ([5, 0, 0, 0, 1, 2, 3, 4, 5] ++ [6, 7, 8, 9, 10]) =
      .ok (⟨[1, 2, 3, 4, 5]⟩, [6, 7, 8, 9, 10]) :=
  c6_remainder_preservation ⟨[1, 2, 3, 4, 5]⟩ [5, 0, 0, 0, 1, 2, 3, 4, 5]
    [6, 7, 8, 9, 10] (by rfl)

/-- C7. Concrete format: encoding `[1,2,3,4,5]` yields the 9 bytes
`[5,0,0,0,1,2,3,4,5]` (little-endian length 5, then the payload); decoding
each of the 9 strict prefixes (lengths 0 through 8) fails with
`EarlyEndOfStream`; and decoding the 9 bytes followed by `[6,7,8,9,10]`
yields the original container with remainder `[6,7,8,9,10]`. -/
theorem c7_concrete_format :
    Bytes.to_bytes ⟨[1, 2, 3, 4, 5]⟩ = .ok [5, 0, 0, 0, 1, 2, 3, 4, 5] ∧
    Bytes.from_bytes [] = .error .EarlyEndOfStream ∧
    Bytes.from_bytes [5] = .error .EarlyEndOfStream ∧
    Bytes.from_bytes [5, 0] = .error .EarlyEndOfStream ∧
    Bytes.from_bytes [5, 0, 0] = .error .EarlyEndOfStream ∧
    Bytes.from_bytes [5, 0, 0, 0] = .error .EarlyEndOfStream ∧
    Bytes.from_bytes [5, 0, 0, 0, 1] = .error .EarlyEndOfStream ∧
    Bytes.from_bytes [5, 0, 0, 0, 1, 2] = .error .EarlyEndOfStream ∧
    Bytes.from_bytes [5, 0, 0, 0, 1, 2, 3] = .error .EarlyEndOfStream ∧
    Bytes.from_bytes [5, 0, 0, 0, 1, 2, 3, 4] = .error .EarlyEndOfStream ∧
    Bytes.from_bytes [5, 0, 0, 0, 1, 2, 3, 4, 5, 6, 7, 8, 9, 10] =
      .ok (⟨[1, 2, 3, 4, 5]⟩, [6, 7, 8, 9, 10]) :=
  ⟨rfl, rfl, rfl, rfl, rfl, rfl, rfl, rfl, rfl, rfl, rfl⟩

/-- C8. Totality: `from_bytes` and `from_vec` return an `ok` or a typed error
on every input (the embedding is a total function into `Except`), in
particular on the empty buffer, a zero-valued length prefix, and a
maximum-valued (`0xFFFFFFFF`) length prefix. -/
theorem c8_totality :
    (∀ bs : ByteSeq, (∃ r, Bytes.from_bytes bs = .ok r) ∨
      (∃ e, Bytes.from_bytes bs = .error e)) ∧
    (∀ bs : ByteSeq, (∃ r, Bytes.from_vec bs = .ok r) ∨
      (∃ e, Bytes.from_vec bs = .error e)) ∧
    Bytes.from_bytes [] = .error .EarlyEndOfStream ∧
    Bytes.from_bytes [0, 0, 0, 0] = .ok (⟨[]⟩, []) ∧
    Bytes.from_bytes [255, 255, 255, 255] = .error .EarlyEndOfStream ∧
    Bytes.from_vec [] = .error .EarlyEndOfStream ∧
    Bytes.from_vec [0, 0, 0, 0] = .ok (⟨[]⟩, []) ∧
    Bytes.from_vec [255, 255, 255, 255] = .error .EarlyEndOfStream := by
  refine ⟨?_, ?_, rfl, rfl, rfl, rfl, rfl, rfl⟩
  · intro bs
    cases h : Bytes.from_bytes bs with
    | ok r => exact .inl ⟨r, rfl⟩
    | error e => exact .inr ⟨e, rfl⟩
  · intro bs
    cases h : Bytes.from_vec bs with
    | ok r => exact .inl ⟨r, rfl⟩
    | error e => exact .inr ⟨e, rfl⟩

/-- C9. Encode failure condition: `into_bytes` agrees with `to_bytes`;
encoding fails iff the container's length exceeds `u32::MAX = 2^32 - 1`; and
encoding succeeds iff the length fits the 4-byte prefix. -/
theorem c9_encode_failure_condition (v : Bytes) :
    Bytes.into_bytes v = Bytes.to_bytes v ∧
    ((∃ e, Bytes.to_bytes v = .error e) ↔ U32_MAX < v.toList.length) ∧
    ((∃ bs, Bytes.to_bytes v = .ok bs) ↔ v.toList.length ≤ U32_MAX) := by
  refine ⟨rfl, ?_, ?_⟩
  · constructor
    · rintro ⟨e, he⟩
      by_contra hlt
      have h : v.toList.length ≤ U32_MAX := Nat.le_of_not_lt hlt
      unfold Bytes.to_bytes serialize_bytes at he
      rw [if_pos h] at he
      exact Except.noConfusion he
    · intro hlt
      exact ⟨.OutOfMemory, serialize_bytes_of_long _ hlt⟩
  · constructor
    · rintro ⟨bs, hbs⟩
      exact ((to_bytes_ok_iff v bs).mp hbs).1
    · intro h
      exact ⟨_, (to_bytes_ok_iff v _).mpr ⟨h, rfl⟩⟩

end Bytesrepr

namespace TestSupport

/-- Modelled from the spec: the builder's collaborator types (`Digest`,
`ProtocolVersion`, `EraId` and the slash/reward/evict item types, all defined
outside the given files) are plain value domains here; the spec treats them
as opaque payload of a "thin object-construction convenience". A digest's
`Default::default()` is the zero digest. -/
abbrev Digest := Nat

/-- Modelled from the spec: a semver-style protocol version triple; its
`Default::default()` is the zero triple. -/
abbrev ProtocolVersion := Nat × Nat × Nat

/-- Modelled from the spec: opaque slash-item payload. -/
abbrev SlashItem := Nat

/-- Modelled from the spec: opaque reward-item payload. -/
abbrev RewardItem := Nat × Nat

/-- Modelled from the spec: opaque evict-item payload. -/
abbrev EvictItem := Nat

/-- Modelled from the spec: an era identifier; its `Default::default()` is the
zero era. -/
abbrev EraId := Nat

/-- The engine-state `StepRequest` the builder produces, field for field as in
`step_request_builder.rs`. -/
structure StepRequest where
  parent_state_hash : Digest
  protocol_version : ProtocolVersion
  slash_items : List SlashItem
  reward_items : List RewardItem
  evict_items : List EvictItem
  run_auction : Bool
  next_era_id : EraId
  era_end_timestamp_millis : Nat
deriving DecidableEq, Repr

/-- Modelled from the spec: `StepRequest::new` (defined outside the given
files) is the plain field-for-field constructor invoked by
`StepRequestBuilder::build`. -/
def StepRequest.new (parent_state_hash : Digest)
    (protocol_version : ProtocolVersion) (slash_items : List SlashItem)
    (reward_items : List RewardItem) (evict_items : List EvictItem)
    (run_auction : Bool) (next_era_id : EraId)
    (era_end_timestamp_millis : Nat) : StepRequest :=
  ⟨parent_state_hash, protocol_version, slash_items, reward_items,
    evict_items, run_auction, next_era_id, era_end_timestamp_millis⟩

/-- `StepRequestBuilder` of `step_request_builder.rs`. -/
structure StepRequestBuilder where
  parent_state_hash : Digest
  protocol_version : ProtocolVersion
  slash_items : List SlashItem
  reward_items : List RewardItem
  evict_items : List EvictItem
  run_auction : Bool
  next_era_id : EraId
  era_end_timestamp_millis : Nat
deriving DecidableEq, Repr

/-- `impl Default for StepRequestBuilder`: every field takes its type's
default value, except `run_auction`, which is set to `true`. -/
def StepRequestBuilder.default : StepRequestBuilder where
  parent_state_hash := 0
  protocol_version := (0, 0, 0)
  slash_items := []
  reward_items := []
  evict_items := []
  run_auction := true
  next_era_id := 0
  era_end_timestamp_millis := 0

/-- `StepRequestBuilder::new`: delegates to `Default::default()`. -/
def StepRequestBuilder.new : StepRequestBuilder :=
  StepRequestBuilder.default

/-- `StepRequestBuilder::with_parent_state_hash`. -/
def StepRequestBuilder.with_parent_state_hash (b : StepRequestBuilder)
    (parent_state_hash : Digest) : StepRequestBuilder :=
  { b with parent_state_hash := parent_state_hash }

/-- `StepRequestBuilder::with_protocol_version`. -/
def StepRequestBuilder.with_protocol_version (b : StepRequestBuilder)
    (protocol_version : ProtocolVersion) : StepRequestBuilder :=
  { b with protocol_version := protocol_version }

/-- `StepRequestBuilder::with_slash_item` (pushes onto the list). -/
def StepRequestBuilder.with_slash_item (b : StepRequestBuilder)
    (slash_item : SlashItem) : StepRequestBuilder :=
  { b with slash_items := b.slash_items ++ [slash_item] }

/-- `StepRequestBuilder::with_reward_item` (pushes onto the list). -/
def StepRequestBuilder.with_reward_item (b : StepRequestBuilder)
    (reward_item : RewardItem) : StepRequestBuilder :=
  { b with reward_items := b.reward_items ++ [reward_item] }

/-- `StepRequestBuilder::with_evict_item` (pushes onto the list). -/
def StepRequestBuilder.with_evict_item (b : StepRequestBuilder)
    (evict_item : EvictItem) : StepRequestBuilder :=
  { b with evict_items := b.evict_items ++ [evict_item] }

/-- `StepRequestBuilder::with_run_auction`. -/
def StepRequestBuilder.with_run_auction (b : StepRequestBuilder)
    (run_auction : Bool) : StepRequestBuilder :=
  { b with run_auction := run_auction }

/-- `StepRequestBuilder::with_next_era_id`. -/
def StepRequestBuilder.with_next_era_id (b : StepRequestBuilder)
    (next_era_id : EraId) : StepRequestBuilder :=
  { b with next_era_id := next_era_id }

/-- `StepRequestBuilder::with_era_end_timestamp_millis`. -/
def StepRequestBuilder.with_era_end_timestamp_millis (b : StepRequestBuilder)
    (era_end_timestamp_millis : Nat) : StepRequestBuilder :=
  { b with era_end_timestamp_millis := era_end_timestamp_millis }

/-- `StepRequestBuilder::build`: hands every field to `StepRequest::new`. -/
def StepRequestBuilder.build (b : StepRequestBuilder) : StepRequest :=
  StepRequest.new b.parent_state_hash b.protocol_version b.slash_items
    b.reward_items b.evict_items b.run_auction b.next_era_id
    b.era_end_timestamp_millis

/-- C10. Implicit builder default: `StepRequestBuilder.new` equals
`StepRequestBuilder.default`, whose `run_auction` field is `true` while every
other field takes its type's default value (zero digest, default protocol
version, empty slash/reward/evict lists, zero era id, zero timestamp);
`build` and every `with_*` setter other than `with_run_auction` preserve
`run_auction`, so a request built without calling `with_run_auction` has
`run_auction = true`. -/
theorem c10_builder_default_run_auction :
    StepRequestBuilder.new = StepRequestBuilder.default ∧
    StepRequestBuilder.new.run_auction = true ∧
    StepRequestBuilder.new.parent_state_hash = 0 ∧
    StepRequestBuilder.new.protocol_version = (0, 0, 0) ∧
    StepRequestBuilder.new.slash_items = [] ∧
    StepRequestBuilder.new.reward_items = [] ∧
    StepRequestBuilder.new.evict_items = [] ∧
    StepRequestBuilder.new.next_era_id = 0 ∧
    StepRequestBuilder.new.era_end_timestamp_millis = 0 ∧
    (∀ b : StepRequestBuilder, b.build.run_auction = b.run_auction) ∧
    (∀ (b : StepRequestBuilder) (d : Digest),
      (b.with_parent_state_hash d).run_auction = b.run_auction) ∧
    (∀ (b : StepRequestBuilder) (p : ProtocolVersion),
      (b.with_protocol_version p).run_auction = b.run_auction) ∧
    (∀ (b : StepRequestBuilder) (x : SlashItem),
      (b.with_slash_item x).run_auction = b.run_auction) ∧
    (∀ (b : StepRequestBuilder) (x : RewardItem),
      (b.with_reward_item x).run_auction = b.run_auction) ∧
    (∀ (b : StepRequestBuilder) (x : EvictItem),
      (b.with_evict_item x).run_auction = b.run_auction) ∧
    (∀ (b : StepRequestBuilder) (e : EraId),
      (b.with_next_era_id e).run_auction = b.run_auction) ∧
    (∀ (b : StepRequestBuilder) (t : Nat),
      (b.with_era_end_timestamp_millis t).run_auction = b.run_auction) ∧
    StepRequestBuilder.new.build.run_auction = true :=
  ⟨rfl, rfl, rfl, rfl, rfl, rfl, rfl, rfl, rfl, fun _ => rfl, fun _ _ => rfl,
    fun _ _ => rfl, fun _ _ => rfl, fun _ _ => rfl, fun _ _ => rfl,
    fun _ _ => rfl, fun _ _ => rfl, rfl⟩

end TestSupport
